import Mathlib

/-!
Verification of the figure-numbering / equation-reference engine of the
fangia-tools Obsidian plugin.

The definitions below are shallow embeddings of the TypeScript functions in
`src/features/figure-numbering.ts` (both the `FigureNumberingFeature` half and
the `EquationReferencesFeature` half of that file) and of the
`FigureNumberingFeature.process` snapshot that carries the per-document
processing lock.  Each concrete JavaScript regular expression is embedded as an
executable parser over `List Char` realising the exact greedy/backtracking
behaviour of that pattern; JS `Map`/`Set` objects are embedded as association
lists / lists of keys; DOM fragments are embedded as lists of the node data the
code actually reads and writes.
-/

namespace FangiaTools

/-- JS `\s` whitespace class, restricted to the code points this code base can
meet (ASCII whitespace plus NBSP). -/
def isWsChar (c : Char) : Bool :=
  c = ' ' || c = '\t' || c = '\n' || c = '\r' || c = '\x0b' || c = '\x0c' || c = ' '

/-- Case-insensitive literal prefix strip (the `/i` flag on a literal);
returns the remainder on success. -/
def stripPrefixCI : List Char → List Char → Option (List Char)
  | [], s => some s
  | _ :: _, [] => none
  | p :: ps, c :: cs => if p.toLower = c.toLower then stripPrefixCI ps cs else none

/-- Case-sensitive literal prefix strip; returns the remainder on success. -/
def stripPrefixCS : List Char → List Char → Option (List Char)
  | [], s => some s
  | _ :: _, [] => none
  | p :: ps, c :: cs => if p = c then stripPrefixCS ps cs else none

/-- JS `String.prototype.trim`. -/
def trimChars (s : List Char) : List Char :=
  ((s.dropWhile isWsChar).reverse.dropWhile isWsChar).reverse

/-! ## FigureDeclarationScanner (`scanForFigures`, figure-numbering.ts:133-184)

The declaration regex is
`/!\[\[([^\]]+\.(png|jpg|jpeg|gif|bmp|svg|webp|pdf)[^\]]*)\]\]\^figure([^\s\r\n]*)/gi`.
Group 1 can only contain non-`]` characters, so at any match position it must
consume exactly the maximal run of non-`]` characters after `![[`, which must
then be followed by `]]`; the run itself must decompose as
`[^\]]+ \. ext [^\]]*`, i.e. contain a dot at index ≥ 1 followed immediately by
one of the extensions (case-insensitively).  Group 3 is the maximal run of
non-whitespace characters after `^figure`. -/

/-- The image-extension allow-list of the declaration regex. -/
def imageExts : List (List Char) :=
  ["png", "jpg", "jpeg", "gif", "bmp", "svg", "webp", "pdf"].map String.toList

/-- Does the run contain a `.` followed immediately by an allow-listed
extension (case-insensitively)?  Called on the tail of the run, so the dot is
at index ≥ 1 of the full run, leaving a nonempty `[^\]]+` part. -/
def hasDotExtFrom : List Char → Bool
  | [] => false
  | '.' :: rest =>
    imageExts.any (fun e => (stripPrefixCI e rest).isSome) || hasDotExtFrom rest
  | _ :: rest => hasDotExtFrom rest

/-- Group 1 viability: nonempty, and a dot-extension occurrence at index ≥ 1. -/
def groupOneOk : List Char → Bool
  | [] => false
  | _ :: rest => hasDotExtFrom rest

/-- Try to match the figure-declaration regex with the match starting at the
head of `cs`.  Returns `(rawImagePath, figureId, restAfterMatch)`. -/
def matchFigureAt (cs : List Char) : Option (List Char × List Char × List Char) :=
  match cs with
  | '!' :: '[' :: '[' :: rest =>
    let r := rest.takeWhile (fun c => c != ']')
    let rest1 := rest.dropWhile (fun c => c != ']')
    if groupOneOk r then
      match rest1 with
      | ']' :: ']' :: rest2 =>
        match stripPrefixCI ("^figure".toList) rest2 with
        | some rest3 =>
          some (r, rest3.takeWhile (fun c => !(isWsChar c)),
                rest3.dropWhile (fun c => !(isWsChar c)))
        | none => none
      | _ => none
    else none
  | _ => none

/-- The `while ((match = figureRegex.exec(content)) !== null)` loop: repeatedly
find the leftmost match at or after the end of the previous match.  Fuel is the
remaining text length; every match consumes at least one character, so the
initial fuel `cs.length` is never exhausted early. -/
def findFigureMatchesAux : Nat → List Char → List (List Char × List Char)
  | 0, _ => []
  | _ + 1, [] => []
  | fuel + 1, c :: cs =>
    match matchFigureAt (c :: cs) with
    | some (path, fid, rest) => (path, fid) :: findFigureMatchesAux fuel rest
    | none => findFigureMatchesAux fuel cs

def findFigureMatches (cs : List Char) : List (List Char × List Char) :=
  findFigureMatchesAux cs.length cs

/-- `FigureInfo` of figure-numbering.ts (`number` is the formatted sequence
label, e.g. "Figure 3.1"). -/
structure FigureInfo where
  number : String
  id : String
  imagePath : String
deriving Repr, DecidableEq

/-- The body of the scan loop: each match in order becomes a record whose label
is `{figureText} {pfx}.{counter}`, with `counter` starting at 1 and incremented
once per match. -/
def numberFigures (figureText pfx : String) : Nat → List (List Char × List Char) → List FigureInfo
  | _, [] => []
  | counter, (path, fid) :: rest =>
    { number := figureText ++ " " ++ pfx ++ "." ++ toString counter,
      id := String.mk fid,
      imagePath := String.mk (trimChars path) } :: numberFigures figureText pfx (counter + 1) rest

/-- `scanForFigures`, parametrised by the resolved prefix and the resolved
language label (in the source they come from `getFilePrefix` and
`isHebrewContent` just above the loop). -/
def scanForFigures (content pfx figureText : String) : List FigureInfo :=
  numberFigures figureText pfx 1 (findFigureMatches content.toList)

/-! ## FilenamePrefixExtractor (`getFilePrefix`, figure-numbering.ts:112-120)

`fileName.match(/[A-Z]+\d+_([A-Z]*\d+)/i)` finds the leftmost match.  At a
given start, `[A-Z]+` (case-insensitive) must consume the maximal letter run
(any shorter consumption leaves a letter where `\d+` needs a digit), `\d+` the
maximal digit run, then a literal `_`, then group 1 as the maximal letter run
followed by the maximal digit run, which must be nonempty. -/

def isAsciiLetter (c : Char) : Bool := c.isUpper || c.isLower

/-- Try to match `[A-Z]+\d+_([A-Z]*\d+)/i` with the match starting at the head
of `cs`; returns group 1. -/
def matchFilePrefixAt (cs : List Char) : Option (List Char) :=
  let l1 := cs.takeWhile isAsciiLetter
  if l1.isEmpty then none
  else
    let r1 := cs.dropWhile isAsciiLetter
    let d1 := r1.takeWhile Char.isDigit
    if d1.isEmpty then none
    else
      match r1.dropWhile Char.isDigit with
      | '_' :: r3 =>
        let l2 := r3.takeWhile isAsciiLetter
        let r4 := r3.dropWhile isAsciiLetter
        let d2 := r4.takeWhile Char.isDigit
        if d2.isEmpty then none else some (l2 ++ d2)
      | _ => none

/-- Leftmost-match search for the file-prefix regex. -/
def findFilePrefixMatch : List Char → Option (List Char)
  | [] => none
  | c :: cs =>
    match matchFilePrefixAt (c :: cs) with
    | some g => some g
    | none => findFilePrefixMatch cs

/-- `prefix.replace(/(\D*)0*(\d+)/, '$1$2')`: the leftmost match starts at
index 0 whenever the string contains a digit (`\D*` absorbs the non-digit
prefix); greedy `0*` must leave at least one digit for `\d+`, so at most
`|digits| - 1` leading zeros are removed from the first digit run.  Without any
digit there is no match and the string is returned unchanged. -/
def replaceDigitsRun (cs : List Char) : List Char :=
  if cs.any Char.isDigit then
    let n := cs.takeWhile (fun c => !c.isDigit)
    let rest := cs.dropWhile (fun c => !c.isDigit)
    let d := rest.takeWhile Char.isDigit
    let after := rest.dropWhile Char.isDigit
    let z := min (d.takeWhile (fun c => c = '0')).length (d.length - 1)
    n ++ d.drop z ++ after
  else cs

/-- `getFilePrefix` (figure-numbering.ts:112-120). -/
def getFilePrefix (fileName : String) : String :=
  match findFilePrefixMatch fileName.toList with
  | some g =>
    let p := replaceDigitsRun g
    if p.isEmpty then "1" else String.mk p
  | none => "1"

/-! ## CaptionAssignmentMatcher (`processBlockForFigures`,
figure-numbering.ts:187-249, and `getNextAvailableFigure`, lines 252-259)

A rendered blockquote is embedded as `Option (List Char)`: `none` when it has
no `<p>` child, otherwise the paragraph content.  (For the markup-free captions
this logic manipulates, `textContent` and `innerHTML` coincide, so one string
models both.)  The JS `Set<string>` of assigned ids is embedded as a `List
String` with insertion order preserved. -/

/-- Character class `[\w\d.-]` of the caption guard regex
`/^(Figure|איור)\s+[\w\d.-]+:/` (JS `\w` is ASCII). -/
def isLabelBodyChar (c : Char) : Bool :=
  isAsciiLetter c || c.isDigit || c = '_' || c = '.' || c = '-'

/-- Character class `[\d.-]` of the label-stripping regex
`/^(Figure|איור)\s+[\d.-]+:\s*\/i`. -/
def isNumBodyChar (c : Char) : Bool :=
  c.isDigit || c = '.' || c = '-'

/-- Alternation `(Figure|איור)`, case-sensitive (the guard regex has no `i`
flag).  The two alternatives start with different characters, so first-match
alternation is a plain case split. -/
def stripLabelWord (s : List Char) : Option (List Char) :=
  match stripPrefixCS ("Figure".toList) s with
  | some r => some r
  | none => stripPrefixCS ("איור".toList) s

/-- Alternation `(Figure|איור)` under the `/i` flag of the stripping regex. -/
def stripLabelWordCI (s : List Char) : Option (List Char) :=
  match stripPrefixCI ("figure".toList) s with
  | some r => some r
  | none => stripPrefixCI ("איור".toList) s

/-- The idempotence guard `/^(Figure|איור)\s+[\w\d.-]+:/.test(originalText)`:
label word, then a nonempty whitespace run, then a nonempty `[\w\d.-]` run,
then a `:`.  The three character classes are pairwise disjoint and `:` is in
none of them, so the greedy runs are exactly the maximal runs. -/
def hasFigureLabel (s : List Char) : Bool :=
  match stripLabelWord s with
  | none => false
  | some r =>
    !(r.takeWhile isWsChar).isEmpty &&
      !((r.dropWhile isWsChar).takeWhile isLabelBodyChar).isEmpty &&
      (match (r.dropWhile isWsChar).dropWhile isLabelBodyChar with
       | ':' :: _ => true
       | _ => false)

/-- `originalHTML.replace(/^(Figure|איור)\s+[\d.-]+:\s*\/i, '')`: remove a
pre-existing label prefix if the anchored pattern matches, otherwise leave the
text unchanged. -/
def stripExistingLabel (s : List Char) : List Char :=
  match stripLabelWordCI s with
  | none => s
  | some r =>
    let ws := r.takeWhile isWsChar
    let r1 := r.dropWhile isWsChar
    if ws.isEmpty then s
    else
      let body := r1.takeWhile isNumBodyChar
      let r2 := r1.dropWhile isNumBodyChar
      if body.isEmpty then s
      else
        match r2 with
        | ':' :: r3 => r3.dropWhile isWsChar
        | _ => s

/-- `Set.add`: JS sets keep first-insertion order and ignore duplicates. -/
def addAssigned (assigned : List String) (fid : String) : List String :=
  if assigned.contains fid then assigned else assigned ++ [fid]

/-- `getNextAvailableFigure` (figure-numbering.ts:252-259): first record in
table order whose id has not been assigned yet. -/
def getNextAvailableFigure (figures : List FigureInfo) (assignedSet : List String) :
    Option FigureInfo :=
  figures.find? (fun f => !(assignedSet.contains f.id))

/-- The per-blockquote body of `processBlockForFigures` (lines 205-245):
skip when there is no paragraph; skip when the caption already carries a
figure label; otherwise consume the next unassigned record, strip any stale
label prefix, trim, and prepend `"{number}: "`. -/
def processBlockquote (figures : List FigureInfo) (assigned : List String)
    (bq : Option (List Char)) : Option (List Char) × List String :=
  match bq with
  | none => (none, assigned)
  | some text =>
    if hasFigureLabel text then (some text, assigned)
    else
      match getNextAvailableFigure figures assigned with
      | none => (some text, assigned)
      | some fig =>
        (some (fig.number.toList ++ ':' :: ' ' :: trimChars (stripExistingLabel text)),
         addAssigned assigned fig.id)

/-- `processBlockForFigures` (figure-numbering.ts:187-249): fold the
per-blockquote body over the blockquotes in fragment encounter order, with the
assignment set threaded through. -/
def processBlockForFigures (figures : List FigureInfo)
    (bqs : List (Option (List Char))) (assigned : List String) :
    List (Option (List Char)) × List String :=
  match bqs with
  | [] => ([], assigned)
  | bq :: rest =>
    let step := processBlockquote figures assigned bq
    let next := processBlockForFigures figures rest step.2
    (step.1 :: next.1, next.2)

/-- Well-formedness of a produced sequence label: label word, nonempty
whitespace run, then a nonempty remainder made only of `[\w\d.-]` characters.
Labels built by `scanForFigures` (e.g. "Figure 3.1") have this shape, and any
caption starting with such a label followed by `:` passes the idempotence
guard. -/
def goodNumber (s : List Char) : Bool :=
  match stripLabelWord s with
  | none => false
  | some r =>
    !(r.takeWhile isWsChar).isEmpty && !(r.dropWhile isWsChar).isEmpty &&
      (r.dropWhile isWsChar).all isLabelBodyChar

/-! ## FigureReferenceLinker (`processFigureReferences`,
figure-numbering.ts:262-295)

A link is embedded as its `href` and visible text.  The id-extraction regex
`/#\^figure([^\s&]*)/` finds the leftmost occurrence of the literal
`#^figure` and captures the maximal following run of non-whitespace,
non-`&` characters. -/

structure LinkEl where
  href : String
  text : String
deriving Repr, DecidableEq

/-- Leftmost match of `/#\^figure([^\s&]*)/` inside `href`, returning the
captured identifier. -/
def extractFigureRef : List Char → Option (List Char)
  | [] => none
  | c :: cs =>
    match stripPrefixCS ("#^figure".toList) (c :: cs) with
    | some rest => some (rest.takeWhile (fun ch => !(isWsChar ch) && ch != '&'))
    | none => extractFigureRef cs

/-- The per-link body of `processFigureReferences`: extract the id from the
link target, look it up by exact id in the table, and on success replace the
visible text with the record's label; otherwise leave the link unchanged. -/
def processFigureLink (figures : List FigureInfo) (l : LinkEl) : LinkEl :=
  match extractFigureRef l.href.toList with
  | none => l
  | some fid =>
    match figures.find? (fun f => f.id = String.mk fid) with
    | some fig => { l with text := fig.number }
    | none => l

/-- `processFigureReferences`: apply the rewrite to every link of the
fragment. -/
def processFigureReferences (figures : List FigureInfo) (links : List LinkEl) :
    List LinkEl :=
  links.map (processFigureLink figures)

/-! ## FigureRegistry (`figuresByFile`, scan registration and the layout-change
guard; figure-numbering.ts:97-105 and 179-183)

`Map<string, T>` is embedded as an association list updated functionally. -/

def lookupA {α : Type} (m : List (String × α)) (k : String) : Option α :=
  (m.find? (fun e => e.1 = k)).map (fun e => e.2)

def setA {α : Type} (m : List (String × α)) (k : String) (v : α) :
    List (String × α) :=
  (k, v) :: m.filter (fun e => e.1 != k)

/-- The try/catch around the scan: `this.app.vault.read(file)` is embedded as
an `Except`; on a read failure the catch block runs and the scan result is the
empty table (figure-numbering.ts:179-183), so the registration below never
propagates the error. -/
def scanForFiguresResult (readResult : Except String String)
    (pfx figureText : String) : List FigureInfo :=
  match readResult with
  | Except.ok content => scanForFigures content pfx figureText
  | Except.error _ => []

/-- The final `this.figuresByFile.set(file.path, ...)` of `scanForFigures`:
executed on both the success path and the catch path. -/
def registerScan (reg : List (String × List FigureInfo)) (path : String)
    (readResult : Except String String) (pfx figureText : String) :
    List (String × List FigureInfo) :=
  setA reg path (scanForFiguresResult readResult pfx figureText)

/-- The `onLayoutChange` guard `!this.figuresByFile.has(activeFile.path)`
(figure-numbering.ts:100): a re-scan is only triggered when no table — not
even an empty one — is cached for the document. -/
def needsLayoutRescan (reg : List (String × List FigureInfo)) (path : String) :
    Bool :=
  (lookupA reg path).isNone

/-! ## EquationAnchorResolver (`addEquationAnchors`, figure-numbering.ts:781-846)

A display equation node is embedded as its `display` flag, its DOM `id` (the
empty string when unset, as in the DOM, where `if (!equation.id)` treats `""`
as absent) and the list of its label texts (the output of
`extractMathJaxText` on each `mjx-labels mjx-mtext` child).  The set of ids
reachable through `document.getElementById` is embedded as a list of strings
that grows as ids are assigned and redirect markers are inserted. -/

structure EqNode where
  display : Bool
  id : String
  labels : List String
deriving Repr, DecidableEq

structure RedirectMarker where
  id : String
  redirectTo : String
deriving Repr, DecidableEq

/-- Letter classes of the tag grammar `\*?[A-Z]{0,2}\d+(?:[.\-]\d+)*[a-z]?`:
under the `/i` flag both classes accept any ASCII letter. -/
def tagLetterHead (ci : Bool) (c : Char) : Bool :=
  if ci then isAsciiLetter c else c.isUpper

def tagLetterTail (ci : Bool) (c : Char) : Bool :=
  if ci then isAsciiLetter c else c.isLower

/-- Greedy `(?:[.\-]\d+)*`: repeatedly consume a separator followed by a
nonempty digit run; stop as soon as the next characters are not
separator-then-digit.  Fuel is the input length, which the consumption of at
least one character per round can never exhaust early. -/
def parseSepGroupsAux : Nat → List Char → List Char × List Char
  | 0, cs => ([], cs)
  | _ + 1, [] => ([], [])
  | fuel + 1, c :: rest =>
    if (c = '.' || c = '-') && !(rest.takeWhile Char.isDigit).isEmpty then
      let ds := rest.takeWhile Char.isDigit
      let r := rest.dropWhile Char.isDigit
      let step := parseSepGroupsAux fuel r
      (c :: (ds ++ step.1), step.2)
    else ([], c :: rest)

def parseSepGroups (cs : List Char) : List Char × List Char :=
  parseSepGroupsAux cs.length cs

/-- `\*?[A-Z]{0,2}\d+(?:[.\-]\d+)*` at the head of the input: an optional
star, at most two letters (three or more letters can never match, because no
shorter letter prefix leaves a digit next), a nonempty digit run, then the
separator groups.  Returns the consumed tag characters and the rest (before
the optional trailing letter, which each anchored pattern checks itself). -/
def parseTagBody (ci : Bool) (cs : List Char) : Option (List Char × List Char) :=
  let star : List Char := match cs with
    | '*' :: _ => ['*']
    | _ => []
  let cs1 := cs.drop star.length
  let letters := cs1.takeWhile (tagLetterHead ci)
  if letters.length > 2 then none
  else
    let cs2 := cs1.drop letters.length
    let ds := cs2.takeWhile Char.isDigit
    if ds.isEmpty then none
    else
      let cs3 := cs2.drop ds.length
      let step := parseSepGroups cs3
      some (star ++ letters ++ ds ++ step.1, step.2)

/-- `^\((\*?[A-Z]{0,2}\d+(?:[.\-]\d+)*[a-z]?)\)$`: the display-equation tag
pattern (case-sensitive, figure-numbering.ts:801) and inline pattern 1
(line 731).  Returns the captured tag. -/
def matchParenTag (ci : Bool) (cs : List Char) : Option String :=
  match cs with
  | '(' :: rest =>
    match parseTagBody ci rest with
    | some (tag, r) =>
      match r with
      | [')'] => some (String.mk tag)
      | [c, ')'] => if tagLetterTail ci c then some (String.mk (tag ++ [c])) else none
      | _ => none
    | none => none
  | _ => none

/-- `addEquationAnchors` label scan: each label is tested against the tag
pattern and contributes its captured tag on success (lines 796-812). -/
def recognizedTags (labels : List String) : List String :=
  labels.filterMap (fun l => matchParenTag false l.toList)

/-- The redirect-marker loop over `equationNumbers.slice(1)` (lines 828-842):
for each subsequent tag, if `document.getElementById("eq-" + tag)` finds
nothing, insert an invisible marker with that id and a `data-redirect-to`
back-reference to the primary anchor id; the inserted marker becomes globally
findable for the remaining iterations. -/
def mkRedirects (primary : String) : List String → List String →
    List RedirectMarker × List String
  | [], g => ([], g)
  | t :: ts, g =>
    if g.contains ("eq-" ++ t) then mkRedirects primary ts g
    else
      let step := mkRedirects primary ts (g ++ ["eq-" ++ t])
      ({ id := "eq-" ++ t, redirectTo := primary } :: step.1, step.2)

/-- The per-equation body of `addEquationAnchors` (lines 789-845): recognize
tags; if any, assign `id = "eq-" + firstTag` only when the node has no id yet,
then create redirect markers for the subsequent tags.  Returns the updated
node, the markers inserted immediately before it, and the updated global id
set.  (The `data-equation-numbers` attribute set alongside is not modelled; it
is write-only in the engine.) -/
def anchorStep (g : List String) (eq : EqNode) :
    EqNode × List RedirectMarker × List String :=
  match recognizedTags eq.labels with
  | [] => (eq, [], g)
  | t0 :: rest =>
    let primaryStep : EqNode × List String :=
      if eq.id = "" then
        ({ eq with id := "eq-" ++ t0 }, g ++ ["eq-" ++ t0])
      else (eq, g)
    let redirects := mkRedirects ("eq-" ++ t0) rest primaryStep.2
    (primaryStep.1, redirects.1, redirects.2)

/-- `addEquationAnchors` over the display equations of a fragment in document
order (the `querySelectorAll('mjx-container.MathJax[display="true"]')`
restriction is the `display` test). -/
def addEquationAnchors (g : List String) (eqs : List EqNode) :
    List (EqNode × List RedirectMarker) × List String :=
  match eqs with
  | [] => ([], g)
  | e :: rest =>
    if e.display then
      let step := anchorStep g e
      let next := addEquationAnchors step.2.2 rest
      ((step.1, step.2.1) :: next.1, next.2)
    else
      let next := addEquationAnchors g rest
      ((e, []) :: next.1, next.2)

/-! ## EquationReferenceLinker (`processRenderedEquationReferences`,
figure-numbering.ts:707-756, and `scrollToEquation`, lines 951-961) -/

/-- `^Eq\.?\s*(tag)$/i` — inline pattern 2 (line 732). -/
def matchEqDotTag (cs : List Char) : Option String :=
  match stripPrefixCI ("eq".toList) cs with
  | some r0 =>
    let r1 : List Char := match r0 with
      | '.' :: t => t
      | _ => r0
    match parseTagBody true (r1.dropWhile isWsChar) with
    | some (tag, r3) =>
      match r3 with
      | [] => some (String.mk tag)
      | [c] => if tagLetterTail true c then some (String.mk (tag ++ [c])) else none
      | _ => none
    | none => none
  | none => none

/-- `^Equation\s*(tag)$/i` — inline pattern 3 (line 733). -/
def matchEquationTag (cs : List Char) : Option String :=
  match stripPrefixCI ("equation".toList) cs with
  | some r0 =>
    match parseTagBody true (r0.dropWhile isWsChar) with
    | some (tag, r3) =>
      match r3 with
      | [] => some (String.mk tag)
      | [c] => if tagLetterTail true c then some (String.mk (tag ++ [c])) else none
      | _ => none
    | none => none
  | none => none

/-- `^\(Eq\.?\s*(tag)\)$/i` — inline pattern 4 (line 734). -/
def matchParenEqTag (cs : List Char) : Option String :=
  match cs with
  | '(' :: rest =>
    match stripPrefixCI ("eq".toList) rest with
    | some r0 =>
      let r1 : List Char := match r0 with
        | '.' :: t => t
        | _ => r0
      match parseTagBody true (r1.dropWhile isWsChar) with
      | some (tag, r3) =>
        match r3 with
        | [')'] => some (String.mk tag)
        | [c, ')'] => if tagLetterTail true c then some (String.mk (tag ++ [c])) else none
        | _ => none
      | none => none
    | none => none
  | _ => none

/-- The inline-reference pattern family in source order (lines 730-747); the
`for`/`break` loop stops at the first matching pattern, so later patterns are
never consulted once one has matched. -/
def matchInlineRef (cs : List Char) : Option String :=
  match matchParenTag false cs with
  | some n => some n
  | none =>
    match matchEqDotTag cs with
    | some n => some n
    | none =>
      match matchEquationTag cs with
      | some n => some n
      | none => matchParenEqTag cs

/-- A MathJax container as the reference linker sees it: display flag, whether
it is already inside a (reference) link, and its reconstructed text. -/
structure MathContainer where
  display : Bool
  inLink : Bool
  text : String
deriving Repr, DecidableEq

/-- The per-container body of `processRenderedEquationReferences`
(lines 720-752): skip containers already inside a link and display equations;
otherwise, on the first matching inline pattern, wrap the container in a link
whose target is `"#eq-" + N`.  Returns the link target created, if any. -/
def containerLinkTarget (c : MathContainer) : Option String :=
  if c.inLink || c.display then none
  else (matchInlineRef c.text.toList).map (fun n => "#eq-" ++ n)

/-- An element findable by id, with its optional `data-redirect-to`
attribute. -/
structure AnchorEl where
  id : String
  redirectTo : Option String
deriving Repr, DecidableEq

def findAnchor (doc : List AnchorEl) (i : String) : Option AnchorEl :=
  doc.find? (fun a => a.id = i)

/-- The navigation of `scrollToEquation` (figure-numbering.ts:951-961): look
up `eq-N`; if the element found carries `data-redirect-to`, follow that single
hop (the hopped-to element is scrolled to as-is, with no further hop); the
result is the id of the element finally scrolled to, or `none` when the code
falls back to plain `window.location.hash` navigation. -/
def resolveEquationTarget (doc : List AnchorEl) (n : String) : Option String :=
  match findAnchor doc ("eq-" ++ n) with
  | none => none
  | some a =>
    match a.redirectTo with
    | none => some a.id
    | some r =>
      match findAnchor doc r with
      | none => none
      | some b => some b.id

/-! ## ProcessingCoordinator (`FigureNumberingFeature.process`,
src/unnamed/part_003 lines 43-87)

The feature state: the per-document figure tables and assignment sets, the
identity-based set of already-processed fragments (fragment identity is a
`Nat`), and the path-keyed lock map (a path is in the list exactly when its
lock flag is `true`).  One invocation of `process` is embedded as a function
from state and fragment to the final state, the rewritten fragment, the trace
of steps executed, and the outcome.  The `await` of the lazy scan is the point
where another fragment of the same document can arrive and observe the held
lock; the vault read is an `Except` input, since this snapshot's
`scanForFigures` has no try/catch and a read failure propagates out of the
`try` block into the `finally`.  A fault thrown by the DOM at the start of the
caption-matching step is modelled by the `matchFault` oracle. -/

structure ProcState where
  figuresByFile : List (String × List FigureInfo)
  assignedFigures : List (String × List String)
  processedEls : List Nat
  processingLock : List String
deriving Repr, DecidableEq

inductive ProcEvent
  | lockAcquired
  | scanStep
  | matchStep
  | lockReleased
deriving Repr, DecidableEq

inductive ProcOutcome
  | skippedProcessed
  | droppedLocked
  | noFigures
  | completed
  | raised
deriving Repr, DecidableEq

/-- `this.processingLock.delete(ctx.sourcePath)` in the `finally` block. -/
def releaseLock (locks : List String) (path : String) : List String :=
  locks.filter (fun q => q != path)

/-- The caption-matching half of the `try` body (lines 73-82): match captions,
record the grown assignment set, mark the fragment processed.  When the DOM
throws at the start of this step, nothing is mutated and the exception
propagates (`matchFault`). -/
def runMatchBody (st : ProcState) (elId : Nat) (path : String)
    (figs : List FigureInfo) (bqs : List (Option (List Char)))
    (matchFault : Bool) :
    ProcState × List (Option (List Char)) × List ProcEvent × ProcOutcome :=
  if matchFault then (st, bqs, [], ProcOutcome.raised)
  else
    let a := (lookupA st.assignedFigures path).getD []
    let res := processBlockForFigures figs bqs a
    ({ st with assignedFigures := setA st.assignedFigures path res.2,
               processedEls := st.processedEls ++ [elId] },
     res.1, [ProcEvent.matchStep], ProcOutcome.completed)

/-- `FigureNumberingFeature.process` (part_003:43-87).  Already-processed
fragments return before anything else; a fragment whose document lock is held
is dropped; otherwise the lock is set, the body runs inside `try`, and the
`finally` block deletes the lock on every exit path (early return, normal
completion, or exception). -/
def FigureNumberingProcess (st : ProcState) (elId : Nat) (path : String)
    (readResult : Except String String) (pfx figureText : String)
    (bqs : List (Option (List Char))) (matchFault : Bool) :
    ProcState × List (Option (List Char)) × List ProcEvent × ProcOutcome :=
  if st.processedEls.contains elId then
    (st, bqs, [], ProcOutcome.skippedProcessed)
  else if st.processingLock.contains path then
    (st, bqs, [], ProcOutcome.droppedLocked)
  else
    let stL := { st with processingLock := st.processingLock ++ [path] }
    let figs0 := (lookupA stL.figuresByFile path).getD []
    if figs0.isEmpty then
      match readResult with
      | Except.error _ =>
        ({ stL with processingLock := releaseLock stL.processingLock path },
         bqs, [ProcEvent.lockAcquired, ProcEvent.scanStep, ProcEvent.lockReleased],
         ProcOutcome.raised)
      | Except.ok content =>
        let figs := scanForFigures content pfx figureText
        let stS := { stL with figuresByFile := setA stL.figuresByFile path figs }
        if figs.isEmpty then
          ({ stS with processingLock := releaseLock stS.processingLock path },
           bqs, [ProcEvent.lockAcquired, ProcEvent.scanStep, ProcEvent.lockReleased],
           ProcOutcome.noFigures)
        else
          let body := runMatchBody stS elId path figs bqs matchFault
          ({ body.1 with processingLock := releaseLock body.1.processingLock path },
           body.2.1,
           ProcEvent.lockAcquired :: ProcEvent.scanStep :: body.2.2.1 ++ [ProcEvent.lockReleased],
           body.2.2.2)
    else
      let body := runMatchBody stL elId path figs0 bqs matchFault
      ({ body.1 with processingLock := releaseLock body.1.processingLock path },
       body.2.1,
       ProcEvent.lockAcquired :: body.2.2.1 ++ [ProcEvent.lockReleased],
       body.2.2.2)

/-! ## Helper lemmas -/

theorem numberFigures_number_at (figureText pfx : String) :
    ∀ (ms : List (List Char × List Char)) (c n : Nat) (r : FigureInfo),
      (numberFigures figureText pfx c ms)[n]? = some r →
      r.number = figureText ++ " " ++ pfx ++ "." ++ toString (c + n)
  | [], _, n, r => by simp [numberFigures]
  | (path, fid) :: rest, c, 0, r => by
    intro h
    simp only [numberFigures, List.getElem?_cons_zero, Option.some.injEq] at h
    simp [← h]
  | (path, fid) :: rest, c, n + 1, r => by
    intro h
    simp only [numberFigures, List.getElem?_cons_succ] at h
    have ih := numberFigures_number_at figureText pfx rest (c + 1) n r h
    rw [ih]
    have : c + 1 + n = c + (n + 1) := by omega
    rw [this]

theorem getFilePrefix_ne_empty (name : String) : getFilePrefix name ≠ "" := by
  unfold getFilePrefix
  cases h : findFilePrefixMatch name.toList with
  | none => simp
  | some g =>
    by_cases he : (replaceDigitsRun g).isEmpty
    · simp [he]
    · simp only [if_neg he]
      intro hc
      apply he
      have hdata := congrArg String.data hc
      simp only at hdata
      simp [hdata]

/-! ### Lemmas for the caption-matcher idempotence -/

/-- Subset relation on assignment sets, phrased through `contains`. -/
def idSub (a b : List String) : Prop :=
  ∀ x : String, a.contains x = true → b.contains x = true

theorem idSub_refl (a : List String) : idSub a a := fun _ h => h

theorem idSub_trans {a b c : List String} (h1 : idSub a b) (h2 : idSub b c) :
    idSub a c :=
  fun x hx => h2 x (h1 x hx)

theorem idSub_addAssigned (a : List String) (fid : String) :
    idSub a (addAssigned a fid) := by
  intro x hx
  unfold addAssigned
  split
  · exact hx
  · simp only [List.elem_eq_mem, decide_eq_true_eq] at hx ⊢
    exact List.mem_append_left _ hx

theorem processBlockquote_snd_shape (figures : List FigureInfo) (a : List String)
    (bq : Option (List Char)) :
    (processBlockquote figures a bq).2 = a ∨
      ∃ f : FigureInfo, (processBlockquote figures a bq).2 = addAssigned a f.id := by
  unfold processBlockquote
  cases bq with
  | none => exact Or.inl rfl
  | some t =>
    by_cases hl : hasFigureLabel t = true
    · exact Or.inl (by simp [hl])
    · cases hn : getNextAvailableFigure figures a with
      | none => exact Or.inl (by simp [hl, hn])
      | some fig => exact Or.inr ⟨fig, by simp [hl, hn]⟩

theorem idSub_processBlockquote (figures : List FigureInfo) (a : List String)
    (bq : Option (List Char)) : idSub a (processBlockquote figures a bq).2 := by
  rcases processBlockquote_snd_shape figures a bq with h | ⟨f, h⟩
  · rw [h]; exact idSub_refl a
  · rw [h]; exact idSub_addAssigned a f.id

theorem idSub_processBlockForFigures (figures : List FigureInfo) :
    ∀ (bqs : List (Option (List Char))) (a : List String),
      idSub a (processBlockForFigures figures bqs a).2
  | [], a => idSub_refl a
  | bq :: rest, a => by
    have h1 := idSub_processBlockquote figures a bq
    have h2 := idSub_processBlockForFigures figures rest (processBlockquote figures a bq).2
    simpa [processBlockForFigures] using idSub_trans h1 h2

theorem getNext_none_mono (figures : List FigureInfo) (a b : List String)
    (hab : idSub a b) (h : getNextAvailableFigure figures a = none) :
    getNextAvailableFigure figures b = none := by
  unfold getNextAvailableFigure at h ⊢
  rw [List.find?_eq_none] at h ⊢
  intro f hf
  have ha : a.contains f.id = true := by
    have := h f hf
    simp only [Bool.not_eq_true', Bool.not_eq_false] at this
    exact this
  have hb := hab f.id ha
  rw [hb]
  simp

theorem takeWhile_all_append (p : Char → Bool) :
    ∀ (xs : List Char) (y : Char) (ys : List Char),
      (∀ c ∈ xs, p c = true) → p y = false →
      (xs ++ y :: ys).takeWhile p = xs
  | [], y, ys => by
    intro _ hy
    simp [List.takeWhile_cons, hy]
  | x :: xs, y, ys => by
    intro hall hy
    have hx : p x = true := hall x (by simp)
    have ih := takeWhile_all_append p xs y ys (fun c hc => hall c (by simp [hc])) hy
    simp [List.takeWhile_cons, hx, ih]

theorem dropWhile_all_append (p : Char → Bool) :
    ∀ (xs : List Char) (y : Char) (ys : List Char),
      (∀ c ∈ xs, p c = true) → p y = false →
      (xs ++ y :: ys).dropWhile p = y :: ys
  | [], y, ys => by
    intro _ hy
    simp [List.dropWhile_cons, hy]
  | x :: xs, y, ys => by
    intro hall hy
    have hx : p x = true := hall x (by simp)
    have ih := dropWhile_all_append p xs y ys (fun c hc => hall c (by simp [hc])) hy
    simp [List.dropWhile_cons, hx, ih]

theorem stripPrefixCS_append (x : List Char) :
    ∀ (pat s r : List Char), stripPrefixCS pat s = some r →
      stripPrefixCS pat (s ++ x) = some (r ++ x)
  | [], s, r => by
    intro h
    simp only [stripPrefixCS, Option.some.injEq] at h ⊢
    rw [h]
  | p :: ps, [], r => by
    intro h
    simp [stripPrefixCS] at h
  | p :: ps, c :: cs, r => by
    intro h
    by_cases hpc : p = c
    · simp only [stripPrefixCS] at h
      rw [if_pos hpc] at h
      rw [List.cons_append]
      simp only [stripPrefixCS]
      rw [if_pos hpc]
      exact stripPrefixCS_append x ps cs r h
    · simp only [stripPrefixCS] at h
      rw [if_neg hpc] at h
      exact absurd h (by simp)

theorem stripPrefixCS_cons_head {p c : Char} {ps cs r : List Char}
    (h : stripPrefixCS (p :: ps) (c :: cs) = some r) : p = c := by
  by_contra hne
  simp only [stripPrefixCS] at h
  rw [if_neg hne] at h
  exact absurd h (by simp)

theorem stripLabelWord_append (s r x : List Char) (h : stripLabelWord s = some r) :
    stripLabelWord (s ++ x) = some (r ++ x) := by
  unfold stripLabelWord at h ⊢
  cases h1 : stripPrefixCS ("Figure".toList) s with
  | some r1 =>
    rw [h1] at h
    rw [stripPrefixCS_append x _ s r1 h1]
    simp only [Option.some.injEq] at h ⊢
    rw [h]
  | none =>
    rw [h1] at h
    have hfig : "Figure".toList = 'F' :: "igure".toList := rfl
    have hheb : "איור".toList = 'א' :: "יור".toList := rfl
    cases s with
    | nil =>
      rw [hheb] at h
      simp [stripPrefixCS] at h
    | cons c cs =>
      have hc : ('א' : Char) = c := by
        rw [hheb] at h
        exact stripPrefixCS_cons_head h
      have hf : stripPrefixCS ("Figure".toList) ((c :: cs) ++ x) = none := by
        rw [hfig, List.cons_append]
        simp only [stripPrefixCS]
        rw [if_neg (by rw [← hc]; decide)]
      rw [hf]
      exact stripPrefixCS_append x _ (c :: cs) r h

theorem body_char_not_ws (c : Char) (h : isLabelBodyChar c = true) :
    isWsChar c = false := by
  cases hw : isWsChar c with
  | false => rfl
  | true =>
    exfalso
    simp only [isWsChar, Bool.or_eq_true, decide_eq_true_eq] at hw
    rcases hw with (((((rfl | rfl) | rfl) | rfl) | rfl) | rfl) | rfl <;>
      exact absurd h (by decide)

theorem goodNumber_label (n tail : List Char) (h : goodNumber n = true) :
    hasFigureLabel (n ++ ':' :: tail) = true := by
  unfold goodNumber at h
  cases hw : stripLabelWord n with
  | none =>
    rw [hw] at h
    exact absurd h (by decide)
  | some r =>
    rw [hw] at h
    simp only [Bool.and_eq_true, Bool.not_eq_true'] at h
    obtain ⟨⟨hws, hbody⟩, hall⟩ := h
    have hwsall : ∀ c ∈ r.takeWhile isWsChar, isWsChar c = true :=
      fun c hc => List.mem_takeWhile_imp hc
    have hbodyall : ∀ c ∈ r.dropWhile isWsChar, isLabelBodyChar c = true := by
      intro c hc
      exact List.all_eq_true.mp hall c hc
    cases hbd : r.dropWhile isWsChar with
    | nil =>
      rw [hbd] at hbody
      exact absurd hbody (by simp)
    | cons b0 bs =>
      have hb0 : isLabelBodyChar b0 = true := by
        apply hbodyall
        rw [hbd]
        simp
      have hbsall : ∀ c ∈ bs, isLabelBodyChar c = true := by
        intro c hc
        apply hbodyall
        rw [hbd]
        simp [hc]
      have hshape : r ++ ':' :: tail =
          (r.takeWhile isWsChar) ++ (b0 :: (bs ++ ':' :: tail)) := by
        conv_lhs => rw [← List.takeWhile_append_dropWhile (p := isWsChar) (l := r), hbd]
        simp
      have heq := stripLabelWord_append n r (':' :: tail) hw
      rw [hshape] at heq
      have e1 : ((r.takeWhile isWsChar) ++ (b0 :: (bs ++ ':' :: tail))).takeWhile isWsChar =
          r.takeWhile isWsChar :=
        takeWhile_all_append isWsChar _ b0 _ hwsall (body_char_not_ws b0 hb0)
      have e2 : ((r.takeWhile isWsChar) ++ (b0 :: (bs ++ ':' :: tail))).dropWhile isWsChar =
          b0 :: (bs ++ ':' :: tail) :=
        dropWhile_all_append isWsChar _ b0 _ hwsall (body_char_not_ws b0 hb0)
      have e3 : (b0 :: (bs ++ ':' :: tail)).takeWhile isLabelBodyChar = b0 :: bs := by
        have := takeWhile_all_append isLabelBodyChar (b0 :: bs) ':' tail
          (by intro c hc; rcases List.mem_cons.mp hc with rfl | hmem
              · exact hb0
              · exact hbsall c hmem)
          (by decide)
        simpa using this
      have e4 : (b0 :: (bs ++ ':' :: tail)).dropWhile isLabelBodyChar = ':' :: tail := by
        have := dropWhile_all_append isLabelBodyChar (b0 :: bs) ':' tail
          (by intro c hc; rcases List.mem_cons.mp hc with rfl | hmem
              · exact hb0
              · exact hbsall c hmem)
          (by decide)
        simpa using this
      unfold hasFigureLabel
      simp only [heq]
      rw [e1, e2, e3, e4]
      simp [hws]

theorem processBlockquote_pass2 (figures : List FigureInfo)
    (hg : ∀ f ∈ figures, goodNumber f.number.toList = true)
    (a b : List String) (hab : idSub a b) (bq : Option (List Char)) :
    processBlockquote figures b (processBlockquote figures a bq).1 =
      ((processBlockquote figures a bq).1, b) := by
  cases bq with
  | none => rfl
  | some t =>
    by_cases hl : hasFigureLabel t = true
    · simp [processBlockquote, hl]
    · cases hn : getNextAvailableFigure figures a with
      | none =>
        have hbn := getNext_none_mono figures a b hab hn
        simp [processBlockquote, hl, hn, hbn]
      | some fig =>
        have hn' : figures.find? (fun f => !(a.contains f.id)) = some fig := hn
        have hmem : fig ∈ figures := List.mem_of_find?_eq_some hn'
        have hlab : hasFigureLabel
            (fig.number.toList ++ ':' :: ' ' :: trimChars (stripExistingLabel t)) = true :=
          goodNumber_label fig.number.toList (' ' :: trimChars (stripExistingLabel t))
            (hg fig hmem)
        have hlab' : hasFigureLabel
            (fig.number.data ++ ':' :: ' ' :: trimChars (stripExistingLabel t)) = true := hlab
        simp [processBlockquote, hl, hn, hlab']

theorem processBlockForFigures_second_pass (figures : List FigureInfo)
    (hg : ∀ f ∈ figures, goodNumber f.number.toList = true) :
    ∀ (bqs : List (Option (List Char))) (a : List String),
      processBlockForFigures figures (processBlockForFigures figures bqs a).1
          (processBlockForFigures figures bqs a).2 =
        processBlockForFigures figures bqs a
  | [], a => by simp [processBlockForFigures]
  | bq :: rest, a => by
    have hsub : idSub a
        (processBlockForFigures figures rest (processBlockquote figures a bq).2).2 :=
      idSub_trans (idSub_processBlockquote figures a bq)
        (idSub_processBlockForFigures figures rest (processBlockquote figures a bq).2)
    have h2 := processBlockquote_pass2 figures hg a
      (processBlockForFigures figures rest (processBlockquote figures a bq).2).2 hsub bq
    have ih := processBlockForFigures_second_pass figures hg rest
      (processBlockquote figures a bq).2
    simp only [processBlockForFigures]
    rw [h2]
    simp only [processBlockForFigures] at ih
    rw [ih]

/-! ### Lemmas for the equation-anchor resolver -/

theorem mkRedirects_creates (primary : String) :
    ∀ (ts g : List String) (t : String), t ∈ ts →
      g.contains ("eq-" ++ t) = false →
      ∃ m ∈ (mkRedirects primary ts g).1,
        m.id = "eq-" ++ t ∧ m.redirectTo = primary
  | [], g, t => by
    intro ht
    exact absurd ht (by simp)
  | t' :: ts', g, t => by
    intro ht hg
    rcases List.mem_cons.mp ht with rfl | hmem
    · simp only [mkRedirects]
      rw [if_neg (by rw [hg]; simp)]
      exact ⟨{ id := "eq-" ++ t, redirectTo := primary }, by simp, rfl, rfl⟩
    · by_cases hc : g.contains ("eq-" ++ t') = true
      · simp only [mkRedirects]
        rw [if_pos hc]
        exact mkRedirects_creates primary ts' g t hmem hg
      · simp only [mkRedirects]
        rw [if_neg hc]
        by_cases he : ("eq-" ++ t : String) = "eq-" ++ t'
        · exact ⟨{ id := "eq-" ++ t', redirectTo := primary }, by simp,
            by rw [he], rfl⟩
        · have hgm : ¬ (("eq-" ++ t : String) ∈ g) := by
            simpa [List.elem_eq_mem] using hg
          have hnm : ¬ (("eq-" ++ t : String) ∈ g ++ ["eq-" ++ t']) := by
            simp [List.mem_append, hgm, he]
          have hg' : (g ++ ["eq-" ++ t']).contains ("eq-" ++ t) = false := by
            simpa [List.elem_eq_mem] using hnm
          obtain ⟨m, hm, h1, h2⟩ :=
            mkRedirects_creates primary ts' (g ++ ["eq-" ++ t']) t hmem hg'
          exact ⟨m, List.mem_cons_of_mem _ hm, h1, h2⟩

theorem not_mem_releaseLock (l : List String) (p : String) :
    p ∉ releaseLock l p := by
  intro hmem
  rw [releaseLock] at hmem
  have hsp := List.mem_filter.mp hmem
  simp at hsp

theorem contains_releaseLock (l : List String) (p : String) :
    (releaseLock l p).contains p = false := by
  simpa [List.elem_eq_mem] using not_mem_releaseLock l p

/-! ## Claim theorems -/

/-- C1: for every raw document text, resolved prefix and resolved language
label, the n-th record of the scanner's ordered figure table (0-based `n`
here) has sequence label `"{languageLabel} {prefix}.{n+1}"`, the counter
incrementing once per declaration match in document order starting at 1 and
independent of the identifier text; and on text containing
`![[a.png]]^figure1` then `![[b.jpg]]^figureX` with prefix "3" and default
language the table is `[{Figure 3.1, id "1"}, {Figure 3.2, id "X"}]`, in that
order. -/
theorem c1_scanner_sequence_labels :
    (∀ (content pfx figureText : String) (n : Nat) (r : FigureInfo),
        (scanForFigures content pfx figureText)[n]? = some r →
        r.number = figureText ++ " " ++ pfx ++ "." ++ toString (n + 1)) ∧
    scanForFigures "![[a.png]]^figure1\n![[b.jpg]]^figureX" "3" "Figure" =
      [{ number := "Figure 3.1", id := "1", imagePath := "a.png" },
       { number := "Figure 3.2", id := "X", imagePath := "b.jpg" }] := by
  constructor
  · intro content pfx figureText n r h
    have hnum := numberFigures_number_at figureText pfx
      (findFigureMatches content.toList) 1 n r h
    rw [hnum, Nat.add_comm]
  · decide

theorem c1_scanner_sequence_labels_witness :
    ((scanForFigures "![[a.png]]^figure1\n![[b.jpg]]^figureX" "3" "Figure")[1]? =
        some { number := "Figure 3.2", id := "X", imagePath := "b.jpg" }) ∧
    ({ number := "Figure 3.2", id := "X", imagePath := "b.jpg" } : FigureInfo).number =
      "Figure" ++ " " ++ "3" ++ "." ++ toString (1 + 1) :=
  ⟨by decide,
   c1_scanner_sequence_labels.1 "![[a.png]]^figure1\n![[b.jpg]]^figureX" "3" "Figure" 1
     { number := "Figure 3.2", id := "X", imagePath := "b.jpg" } (by decide)⟩

/-- C7 counterexample: the claim says `"ABC1_000"` yields `"1"` through an
empty-after-stripping fallback, but `getFilePrefix "ABC1_000"` returns `"0"`:
the replace regex `(\D*)0*(\d+)` must leave at least one digit for `\d+`, so
stripping `"000"` yields `"0"`, which is truthy and is returned as-is. -/
theorem c7_file_prefix_counterexample :
    getFilePrefix "ABC1_000" = "0" ∧ ("0" : String) ≠ "1" := by
  constructor
  · decide
  · decide

/-- C7 (amended): `getFilePrefix` always returns a nonempty string, strips
leading zeros while preserving leading letters (`"SLD1_002"` yields `"2"`,
`"IRB1_HW003"` yields `"HW3"`), returns `"1"` when no pattern matches
(`"randomfile"`), but an all-zero digit run keeps its final digit:
`"ABC1_000"` yields `"0"`, so the empty-residual fallback never fires. -/
theorem c7_file_prefix_amended :
    getFilePrefix "SLD1_002" = "2" ∧
    getFilePrefix "IRB1_HW003" = "HW3" ∧
    getFilePrefix "ABC1_000" = "0" ∧
    getFilePrefix "randomfile" = "1" ∧
    (∀ name : String, getFilePrefix name ≠ "") := by
  refine ⟨by decide, by decide, by decide, by decide, getFilePrefix_ne_empty⟩

theorem c7_file_prefix_amended_witness : getFilePrefix "SLD1_002" ≠ "" :=
  c7_file_prefix_amended.2.2.2.2 "SLD1_002"

/-- C8: when the document text cannot be read, the scanner's catch block still
registers an empty figure table for the document — the table is present but
empty, not absent — the registration itself is a total function (the failure
is not surfaced), and the layout-change guard `!figuresByFile.has(path)`
consequently reports that no re-scan is needed. -/
theorem c8_scan_failure_registers_empty_table :
    ∀ (reg : List (String × List FigureInfo)) (path e pfx figureText : String),
      lookupA (registerScan reg path (Except.error e) pfx figureText) path =
        some ([] : List FigureInfo) ∧
      needsLayoutRescan (registerScan reg path (Except.error e) pfx figureText) path =
        false := by
  intro reg path e pfx figureText
  have hl : lookupA (registerScan reg path (Except.error e) pfx figureText) path =
      some ([] : List FigureInfo) := by
    simp [registerScan, setA, lookupA, scanForFiguresResult]
  exact ⟨hl, by simp [needsLayoutRescan, hl]⟩

/-- C10: `getNextAvailableFigure` skips every record whose id is already in
the assignment set — so once one of two records sharing an id is consumed, the
other can never be selected: with two records of id `""` and one of id `"X"`,
after `""` is consumed the selection returns the `"X"` record, and with only
the two `""` records it returns nothing at all. -/
theorem c10_duplicate_ids_never_reassigned :
    (∀ (figures : List FigureInfo) (assigned : List String) (f : FigureInfo),
        getNextAvailableFigure figures assigned = some f →
        assigned.contains f.id = false) ∧
    getNextAvailableFigure
      [{ number := "Figure 1.1", id := "", imagePath := "a.png" },
       { number := "Figure 1.2", id := "", imagePath := "b.png" },
       { number := "Figure 1.3", id := "X", imagePath := "c.png" }] [""] =
      some { number := "Figure 1.3", id := "X", imagePath := "c.png" } ∧
    getNextAvailableFigure
      [{ number := "Figure 1.1", id := "", imagePath := "a.png" },
       { number := "Figure 1.2", id := "", imagePath := "b.png" }] [""] = none := by
  refine ⟨?_, by decide, by decide⟩
  intro figures assigned f h
  have hp := List.find?_some h
  simpa using hp

theorem c10_duplicate_ids_never_reassigned_witness :
    (([""] : List String).contains
      ({ number := "Figure 1.3", id := "X", imagePath := "c.png" } : FigureInfo).id) = false :=
  c10_duplicate_ids_never_reassigned.1
    [{ number := "Figure 1.1", id := "", imagePath := "a.png" },
     { number := "Figure 1.2", id := "", imagePath := "b.png" },
     { number := "Figure 1.3", id := "X", imagePath := "c.png" }] [""]
    { number := "Figure 1.3", id := "X", imagePath := "c.png" } (by decide)

/-- C2: the caption matcher walks blockquotes in fragment encounter order;
a caption already bearing a label is skipped; a caption with no unassigned
record left is untouched; otherwise the first table record whose id is not in
the assignment set is consumed, its id added to the set, any stale label
prefix stripped, and `"{sequenceLabel}: "` prepended — so two unlabeled
captions against a two-entry table (with distinct ids, starting from the empty
set) receive entry 1 and entry 2 in document order. -/
theorem c2_caption_assignment_order :
    (∀ (figures : List FigureInfo) (assigned : List String) (t : List Char),
        hasFigureLabel t = true →
        processBlockquote figures assigned (some t) = (some t, assigned)) ∧
    (∀ (figures : List FigureInfo) (assigned : List String) (t : List Char),
        getNextAvailableFigure figures assigned = none →
        processBlockquote figures assigned (some t) = (some t, assigned)) ∧
    (∀ (f1 f2 : FigureInfo) (t1 t2 : List Char),
        hasFigureLabel t1 = false → hasFigureLabel t2 = false → f1.id ≠ f2.id →
        processBlockForFigures [f1, f2] [some t1, some t2] [] =
          ([some (f1.number.toList ++ ':' :: ' ' :: trimChars (stripExistingLabel t1)),
            some (f2.number.toList ++ ':' :: ' ' :: trimChars (stripExistingLabel t2))],
           [f1.id, f2.id])) := by
  refine ⟨?_, ?_, ?_⟩
  · intro figures assigned t h
    simp [processBlockquote, h]
  · intro figures assigned t h
    by_cases hl : hasFigureLabel t = true
    · simp [processBlockquote, hl]
    · simp [processBlockquote, hl, h]
  · intro f1 f2 t1 t2 h1 h2 hne
    have hne' : f2.id ≠ f1.id := Ne.symm hne
    have hb : (f2.id == f1.id) = false := beq_eq_false_iff_ne.mpr hne'
    simp [processBlockForFigures, processBlockquote, getNextAvailableFigure,
      addAssigned, h1, h2, hb, hne', List.find?]

theorem c2_caption_assignment_order_witness :
    processBlockForFigures
        [{ number := "Figure 3.1", id := "1", imagePath := "a.png" },
         { number := "Figure 3.2", id := "X", imagePath := "b.jpg" }]
        [some ("a cat".toList), some ("a dog".toList)] [] =
      ([some (("Figure 3.1" : String).toList ++ ':' :: ' ' ::
              trimChars (stripExistingLabel ("a cat".toList))),
        some (("Figure 3.2" : String).toList ++ ':' :: ' ' ::
              trimChars (stripExistingLabel ("a dog".toList)))],
       ["1", "X"]) :=
  c2_caption_assignment_order.2.2
    { number := "Figure 3.1", id := "1", imagePath := "a.png" }
    { number := "Figure 3.2", id := "X", imagePath := "b.jpg" }
    ("a cat".toList) ("a dog".toList) (by decide) (by decide) (by decide)

/-- C3: a caption whose text already begins with a recognized figure-label
pattern (either language) is skipped and left unchanged with the assignment
set untouched; consequently, when every table record's label has the produced
label shape (label word, whitespace, `[\w\d.-]` body — as all scanner outputs
do), running the caption matcher a second time on its own output without a
registry reset changes nothing: no caption is double-prefixed (e.g.
"Figure 3.1: a cat" stays unchanged). -/
theorem c3_second_pass_noop :
    (∀ (figures : List FigureInfo) (assigned : List String) (t : List Char),
        hasFigureLabel t = true →
        processBlockquote figures assigned (some t) = (some t, assigned)) ∧
    (∀ (figures : List FigureInfo) (bqs : List (Option (List Char)))
        (assigned : List String),
        (∀ f ∈ figures, goodNumber f.number.toList = true) →
        processBlockForFigures figures
            (processBlockForFigures figures bqs assigned).1
            (processBlockForFigures figures bqs assigned).2 =
          processBlockForFigures figures bqs assigned) := by
  constructor
  · intro figures assigned t h
    simp [processBlockquote, h]
  · intro figures bqs assigned hg
    exact processBlockForFigures_second_pass figures hg bqs assigned

theorem c3_second_pass_noop_witness :
    processBlockquote [] [] (some (("Figure 3.1: a cat" : String).toList)) =
      (some (("Figure 3.1: a cat" : String).toList), []) ∧
    processBlockForFigures
        [{ number := "Figure 3.1", id := "1", imagePath := "a.png" }]
        (processBlockForFigures
            [{ number := "Figure 3.1", id := "1", imagePath := "a.png" }]
            [some (("a cat" : String).toList)] []).1
        (processBlockForFigures
            [{ number := "Figure 3.1", id := "1", imagePath := "a.png" }]
            [some (("a cat" : String).toList)] []).2 =
      processBlockForFigures
        [{ number := "Figure 3.1", id := "1", imagePath := "a.png" }]
        [some (("a cat" : String).toList)] [] :=
  ⟨c3_second_pass_noop.1 [] [] (("Figure 3.1: a cat" : String).toList) (by decide),
   c3_second_pass_noop.2 [{ number := "Figure 3.1", id := "1", imagePath := "a.png" }]
     [some (("a cat" : String).toList)] [] (by decide)⟩

/-- C4: a display equation with at least one recognized tag gets
`id = "eq-" + firstTag` only when it does not already carry an identifier (a
node with an id keeps it and is otherwise unchanged); for every subsequent
recognized tag with no globally existing anchor, a redirect marker with
`id = "eq-" + tag` and a back-reference to the primary anchor id is inserted
before the node; equations with zero recognized tags are left completely
untouched (no anchor, no markers, no error).  Concretely, tags `(4.13)` and
`(4.13a)` yield `eq-4.13` on the node and a marker `eq-4.13a → eq-4.13`. -/
theorem c4_equation_anchor_resolution :
    (∀ (g : List String) (e : EqNode),
        recognizedTags e.labels = [] → anchorStep g e = (e, [], g)) ∧
    (∀ (g : List String) (e : EqNode) (t0 : String) (rest : List String),
        recognizedTags e.labels = t0 :: rest →
        (e.id = "" → (anchorStep g e).1.id = "eq-" ++ t0) ∧
        (e.id ≠ "" → (anchorStep g e).1 = e) ∧
        (∀ t ∈ rest,
            ((if e.id = "" then g ++ ["eq-" ++ t0] else g).contains ("eq-" ++ t)) =
              false →
            ∃ m ∈ (anchorStep g e).2.1,
              m.id = "eq-" ++ t ∧ m.redirectTo = "eq-" ++ t0)) ∧
    anchorStep [] { display := true, id := "", labels := ["(4.13)", "(4.13a)"] } =
      ({ display := true, id := "eq-4.13", labels := ["(4.13)", "(4.13a)"] },
       [{ id := "eq-4.13a", redirectTo := "eq-4.13" }],
       ["eq-4.13", "eq-4.13a"]) := by
  refine ⟨?_, ?_, by decide⟩
  · intro g e h
    simp [anchorStep, h]
  · intro g e t0 rest h
    refine ⟨?_, ?_, ?_⟩
    · intro hid
      simp [anchorStep, h, hid]
    · intro hid
      simp [anchorStep, h, hid]
    · intro t ht hcont
      by_cases hid : e.id = ""
      · rw [if_pos hid] at hcont
        have hex := mkRedirects_creates ("eq-" ++ t0) rest (g ++ ["eq-" ++ t0]) t ht hcont
        simpa [anchorStep, h, hid] using hex
      · rw [if_neg hid] at hcont
        have hex := mkRedirects_creates ("eq-" ++ t0) rest g t ht hcont
        simpa [anchorStep, h, hid] using hex

theorem c4_equation_anchor_resolution_witness :
    (anchorStep ["eq-x"]
        { display := true, id := "", labels := ["(4.13)", "(4.13a)"] }).1.id =
      "eq-" ++ "4.13" ∧
    anchorStep [] { display := true, id := "", labels := ["(no tag here)"] } =
      ({ display := true, id := "", labels := ["(no tag here)"] }, [], []) ∧
    (∃ m ∈ (anchorStep []
        { display := true, id := "", labels := ["(4.13)", "(4.13a)"] }).2.1,
      m.id = "eq-" ++ "4.13a" ∧ m.redirectTo = "eq-" ++ "4.13") :=
  ⟨(c4_equation_anchor_resolution.2.1 ["eq-x"]
      { display := true, id := "", labels := ["(4.13)", "(4.13a)"] }
      "4.13" ["4.13a"] (by decide)).1 rfl,
   c4_equation_anchor_resolution.1 []
     { display := true, id := "", labels := ["(no tag here)"] } (by decide),
   (c4_equation_anchor_resolution.2.1 []
      { display := true, id := "", labels := ["(4.13)", "(4.13a)"] }
      "4.13" ["4.13a"] (by decide)).2.2 "4.13a" (by decide) (by decide)⟩

/-- C5: a non-display equation container not already inside a link is tested
against the inline-reference pattern family in order, and only the first
matching pattern is used — a pattern-1 match decides the result outright; the
created link target is `"#eq-" + N`; the click navigation resolves the target
anchor and follows exactly one redirect hop when it is a redirect marker, so
an inline `(4.13a)` reference navigates to the same target as `(4.13)` when
`eq-4.13a` redirects to `eq-4.13`. -/
theorem c5_equation_reference_linking :
    (∀ (cs : List Char) (n : String),
        matchParenTag false cs = some n → matchInlineRef cs = some n) ∧
    (∀ c : MathContainer, c.inLink = true → containerLinkTarget c = none) ∧
    (∀ (c : MathContainer) (n : String),
        c.inLink = false → c.display = false →
        matchInlineRef c.text.toList = some n →
        containerLinkTarget c = some ("#eq-" ++ n)) ∧
    (∀ (doc : List AnchorEl) (n r : String) (a : AnchorEl),
        findAnchor doc ("eq-" ++ n) = some a → a.redirectTo = some r →
        resolveEquationTarget doc n = (findAnchor doc r).map (fun b => b.id)) ∧
    resolveEquationTarget
        [{ id := "eq-4.13", redirectTo := none },
         { id := "eq-4.13a", redirectTo := some "eq-4.13" }] "4.13a" =
      resolveEquationTarget
        [{ id := "eq-4.13", redirectTo := none },
         { id := "eq-4.13a", redirectTo := some "eq-4.13" }] "4.13" ∧
    resolveEquationTarget
        [{ id := "eq-4.13", redirectTo := none },
         { id := "eq-4.13a", redirectTo := some "eq-4.13" }] "4.13" =
      some "eq-4.13" := by
  refine ⟨?_, ?_, ?_, ?_, by decide, by decide⟩
  · intro cs n h
    simp [matchInlineRef, h]
  · intro c h
    simp [containerLinkTarget, h]
  · intro c n h1 h2 h3
    have h3' : matchInlineRef c.text.data = some n := h3
    simp [containerLinkTarget, h1, h2, h3']
  · intro doc n r a h1 h2
    unfold resolveEquationTarget
    simp only [h1, h2]
    cases hf : findAnchor doc r <;> simp [hf]

theorem c5_equation_reference_linking_witness :
    matchInlineRef (("(4.13)" : String).toList) = some "4.13" ∧
    containerLinkTarget { display := false, inLink := true, text := "(4.13)" } = none ∧
    containerLinkTarget { display := false, inLink := false, text := "(4.13a)" } =
      some ("#eq-" ++ "4.13a") ∧
    resolveEquationTarget
        [{ id := "eq-4.13", redirectTo := none },
         { id := "eq-4.13a", redirectTo := some "eq-4.13" }] "4.13a" =
      (findAnchor
          [{ id := "eq-4.13", redirectTo := none },
           { id := "eq-4.13a", redirectTo := some "eq-4.13" }] "eq-4.13").map
        (fun b => b.id) :=
  ⟨c5_equation_reference_linking.1 (("(4.13)" : String).toList) "4.13" (by decide),
   c5_equation_reference_linking.2.1
     { display := false, inLink := true, text := "(4.13)" } rfl,
   c5_equation_reference_linking.2.2.1
     { display := false, inLink := false, text := "(4.13a)" } "4.13a" rfl rfl (by decide),
   c5_equation_reference_linking.2.2.2.1
     [{ id := "eq-4.13", redirectTo := none },
      { id := "eq-4.13a", redirectTo := some "eq-4.13" }] "4.13a" "eq-4.13"
     { id := "eq-4.13a", redirectTo := some "eq-4.13" } (by decide) rfl⟩

/-- C9: a fragment arriving while its document's lock is held is dropped —
state untouched, no scan or match step executed, outcome `droppedLocked`; on
every invocation that is not dropped or deduplicated the trace is exactly a
lock acquisition, then the body steps (the lazy scan, when one is needed, and
the caption-matching step), then the release, with no other acquire/release
inside; and the lock is released unconditionally before returning — also when
the scan read fails or the matching step throws. -/
theorem c9_processing_lock :
    ∀ (st : ProcState) (elId : Nat) (path : String)
      (readResult : Except String String) (pfx figureText : String)
      (bqs : List (Option (List Char))) (matchFault : Bool),
      (st.processedEls.contains elId = false →
        st.processingLock.contains path = true →
        FigureNumberingProcess st elId path readResult pfx figureText bqs matchFault =
          (st, bqs, [], ProcOutcome.droppedLocked)) ∧
      (st.processingLock.contains path = false →
        (FigureNumberingProcess st elId path readResult pfx figureText bqs
            matchFault).1.processingLock.contains path = false) ∧
      (st.processedEls.contains elId = false →
        st.processingLock.contains path = false →
        ∃ mid : List ProcEvent,
          (FigureNumberingProcess st elId path readResult pfx figureText bqs
              matchFault).2.2.1 =
            ProcEvent.lockAcquired :: mid ++ [ProcEvent.lockReleased] ∧
          ProcEvent.lockAcquired ∉ mid ∧ ProcEvent.lockReleased ∉ mid) := by
  intro st elId path readResult pfx figureText bqs matchFault
  refine ⟨?_, ?_, ?_⟩
  · intro hp hl
    have hpm : ¬ (elId ∈ st.processedEls) := by simpa [List.elem_eq_mem] using hp
    have hlm : path ∈ st.processingLock := by simpa [List.elem_eq_mem] using hl
    simp [FigureNumberingProcess, hpm, hlm]
  · intro hl
    have hlm : ¬ (path ∈ st.processingLock) := by simpa [List.elem_eq_mem] using hl
    by_cases hp0 : st.processedEls.contains elId = true
    · simp only [FigureNumberingProcess, if_pos hp0]
      exact hl
    · have hpm : ¬ (elId ∈ st.processedEls) := by simpa [List.elem_eq_mem] using hp0
      by_cases he : (lookupA st.figuresByFile path).getD [] = []
      · cases readResult with
        | error e =>
          simp [FigureNumberingProcess, hpm, hlm, he, contains_releaseLock, not_mem_releaseLock]
        | ok content =>
          by_cases hf : scanForFigures content pfx figureText = []
          · simp [FigureNumberingProcess, hpm, hlm, he, hf, contains_releaseLock, not_mem_releaseLock]
          · cases matchFault with
            | true =>
              simp [FigureNumberingProcess, runMatchBody, hpm, hlm, he, hf,
                contains_releaseLock, not_mem_releaseLock]
            | false =>
              simp [FigureNumberingProcess, runMatchBody, hpm, hlm, he, hf,
                contains_releaseLock, not_mem_releaseLock]
      · cases matchFault with
        | true =>
          simp [FigureNumberingProcess, runMatchBody, hpm, hlm, he,
            contains_releaseLock, not_mem_releaseLock]
        | false =>
          simp [FigureNumberingProcess, runMatchBody, hpm, hlm, he,
            contains_releaseLock, not_mem_releaseLock]
  · intro hp hl
    have hpm : ¬ (elId ∈ st.processedEls) := by simpa [List.elem_eq_mem] using hp
    have hlm : ¬ (path ∈ st.processingLock) := by simpa [List.elem_eq_mem] using hl
    by_cases he : (lookupA st.figuresByFile path).getD [] = []
    · cases readResult with
      | error e =>
        refine ⟨[ProcEvent.scanStep], ?_, by decide, by decide⟩
        simp [FigureNumberingProcess, hpm, hlm, he]
      | ok content =>
        by_cases hf : scanForFigures content pfx figureText = []
        · refine ⟨[ProcEvent.scanStep], ?_, by decide, by decide⟩
          simp [FigureNumberingProcess, hpm, hlm, he, hf]
        · cases matchFault with
          | true =>
            refine ⟨[ProcEvent.scanStep], ?_, by decide, by decide⟩
            simp [FigureNumberingProcess, runMatchBody, hpm, hlm, he, hf]
          | false =>
            refine ⟨[ProcEvent.scanStep, ProcEvent.matchStep], ?_, by decide, by decide⟩
            simp [FigureNumberingProcess, runMatchBody, hpm, hlm, he, hf]
    · cases matchFault with
      | true =>
        refine ⟨[], ?_, by decide, by decide⟩
        simp [FigureNumberingProcess, runMatchBody, hpm, hlm, he]
      | false =>
        refine ⟨[ProcEvent.matchStep], ?_, by decide, by decide⟩
        simp [FigureNumberingProcess, runMatchBody, hpm, hlm, he]

theorem c9_processing_lock_witness :
    FigureNumberingProcess
        { figuresByFile := [], assignedFigures := [], processedEls := [],
          processingLock := ["doc.md"] } 7 "doc.md" (Except.error "read failed")
        "3" "Figure" [] false =
      ({ figuresByFile := [], assignedFigures := [], processedEls := [],
         processingLock := ["doc.md"] }, [], [], ProcOutcome.droppedLocked) ∧
    (FigureNumberingProcess
        { figuresByFile := [], assignedFigures := [], processedEls := [],
          processingLock := [] } 7 "doc.md" (Except.error "read failed")
        "3" "Figure" [] false).1.processingLock.contains "doc.md" = false ∧
    (∃ mid : List ProcEvent,
      (FigureNumberingProcess
          { figuresByFile := [], assignedFigures := [], processedEls := [],
            processingLock := [] } 7 "doc.md" (Except.error "read failed")
          "3" "Figure" [] false).2.2.1 =
        ProcEvent.lockAcquired :: mid ++ [ProcEvent.lockReleased] ∧
      ProcEvent.lockAcquired ∉ mid ∧ ProcEvent.lockReleased ∉ mid) :=
  ⟨(c9_processing_lock
      { figuresByFile := [], assignedFigures := [], processedEls := [],
        processingLock := ["doc.md"] } 7 "doc.md" (Except.error "read failed")
      "3" "Figure" [] false).1 (by decide) (by decide),
   (c9_processing_lock
      { figuresByFile := [], assignedFigures := [], processedEls := [],
        processingLock := [] } 7 "doc.md" (Except.error "read failed")
      "3" "Figure" [] false).2.1 (by decide),
   (c9_processing_lock
      { figuresByFile := [], assignedFigures := [], processedEls := [],
        processingLock := [] } 7 "doc.md" (Except.error "read failed")
      "3" "Figure" [] false).2.2 (by decide) (by decide)⟩

/-- C6: the figure-reference linker extracts the identifier from the link's
target and looks it up by exact id match in the table: on a match the link's
visible text is replaced with the matching record's `sequenceLabel` (target
untouched); when the target has no figure-identifier fragment, or no record
matches the extracted identifier exactly, the link is unchanged; and a second
application after a successful rewrite is a no-op (output equals input),
because the lookup is by link target, not visible text. -/
theorem c6_figure_reference_linker :
    (∀ (figures : List FigureInfo) (l : LinkEl) (fid : List Char)
        (fig : FigureInfo),
        extractFigureRef l.href.toList = some fid →
        figures.find? (fun f => f.id = String.mk fid) = some fig →
        processFigureLink figures l = { l with text := fig.number }) ∧
    (∀ (figures : List FigureInfo) (l : LinkEl),
        processFigureLink figures (processFigureLink figures l) =
          processFigureLink figures l) ∧
    (∀ (figures : List FigureInfo) (l : LinkEl),
        extractFigureRef l.href.toList = none → processFigureLink figures l = l) ∧
    (∀ (figures : List FigureInfo) (l : LinkEl) (fid : List Char),
        extractFigureRef l.href.toList = some fid →
        figures.find? (fun f => f.id = String.mk fid) = none →
        processFigureLink figures l = l) := by
  refine ⟨?_, ?_, ?_, ?_⟩
  · intro figures l fid fig h1 h2
    have h1a : extractFigureRef l.href.data = some fid := h1
    simp [processFigureLink, h1a, h2]
  · intro figures l
    cases h1 : extractFigureRef l.href.data with
    | none => simp [processFigureLink, h1]
    | some fid =>
      cases h2 : List.find? (fun f => f.id = String.mk fid) figures with
      | none => simp [processFigureLink, h1, h2]
      | some fig => simp [processFigureLink, h1, h2]
  · intro figures l h
    have h1 : extractFigureRef l.href.data = none := h
    simp [processFigureLink, h1]
  · intro figures l fid h1 h2
    have h1a : extractFigureRef l.href.data = some fid := h1
    simp [processFigureLink, h1a, h2]

theorem c6_figure_reference_linker_witness :
    processFigureLink [{ number := "Figure 3.1", id := "1", imagePath := "a.png" }]
        { href := "#^figure1", text := "old" } =
      { href := "#^figure1", text := "Figure 3.1" } ∧
    processFigureLink [{ number := "Figure 3.1", id := "1", imagePath := "a.png" }]
        (processFigureLink [{ number := "Figure 3.1", id := "1", imagePath := "a.png" }]
          { href := "#^figure1", text := "old" }) =
      processFigureLink [{ number := "Figure 3.1", id := "1", imagePath := "a.png" }]
        { href := "#^figure1", text := "old" } ∧
    processFigureLink [{ number := "Figure 3.1", id := "1", imagePath := "a.png" }]
        { href := "#^figure9", text := "old" } =
      { href := "#^figure9", text := "old" } :=
  ⟨c6_figure_reference_linker.1 [{ number := "Figure 3.1", id := "1", imagePath := "a.png" }]
     { href := "#^figure1", text := "old" } ("1".toList)
     { number := "Figure 3.1", id := "1", imagePath := "a.png" } (by decide) (by decide),
   c6_figure_reference_linker.2.1 [{ number := "Figure 3.1", id := "1", imagePath := "a.png" }]
     { href := "#^figure1", text := "old" },
   c6_figure_reference_linker.2.2.2 [{ number := "Figure 3.1", id := "1", imagePath := "a.png" }]
     { href := "#^figure9", text := "old" } ("9".toList) (by decide) (by decide)⟩

end FangiaTools
